import Mathlib

/-!
Verification of `buchsbaum_frequency` from `src/hack/Buchsbaum_frequency.py`.

The function composes two sub-formulas from an external scientific library
(`gyrofrequency` and `plasma_frequency`) via a closed-form expression:

    omega_c1 = gyrofrequency(B, particle1, signed=False, Z=Z1)
    omega_c2 = gyrofrequency(B, particle2, signed=False, Z=Z2)
    omega_p1 = plasma_frequency(n1, particle1, z_mean=None)
    omega_p2 = plasma_frequency(n2, particle2, z_mean=None)
    return np.sqrt((omega_p1**2 * omega_c2**2 + omega_p2**2 * omega_c1**2)
                   / (omega_p1**2 + omega_p2**2))

Quantities are embedded as real numbers (SI values, units stripped).
The two sub-formulas are not part of this repository, so they are modelled
from the spec's description of them.
-/

namespace Hack

/-- Elementary charge in coulombs (SI exact value). -/
noncomputable def e_si : ℝ := 1.602176634e-19

/-- Vacuum permittivity in farads per meter (SI value). -/
noncomputable def eps0 : ℝ := 8.8541878128e-12

/-- A particle species: rest mass in kilograms and default charge number.
The library resolves a particle identifier to these physical properties. -/
structure Particle where
  m : ℝ
  Z : ℝ

/-- Modelled from the spec: `gyrofrequency(B, particle, signed=False, Z)` from
the external formulary, absent from `src/`.  The unsigned angular cyclotron
frequency `|Z e B| / m`, where the optional `Z` overrides the species'
default charge number. -/
noncomputable def gyrofrequency (B : ℝ) (p : Particle) (Z : Option ℝ) : ℝ :=
  |Z.getD p.Z| * e_si * |B| / p.m

/-- Modelled from the spec: `plasma_frequency(n, particle, z_mean)` from the
external formulary, absent from `src/`.  The angular plasma oscillation
frequency `sqrt(n Z² e² / (ε₀ m))`, whose square is proportional to the
number density `n`; `z_mean = none` means the species' default charge
number is used. -/
noncomputable def plasma_frequency (n : ℝ) (p : Particle) (z_mean : Option ℝ) : ℝ :=
  Real.sqrt (n * (z_mean.getD p.Z) ^ 2 * e_si ^ 2 / (eps0 * p.m))

/-- Embedding of `buchsbaum_frequency` from `src/hack/Buchsbaum_frequency.py`.
The `to_hz` flag appears in the Python signature but is never read by the
body, so it is an ignored parameter here as well. -/
noncomputable def buchsbaum_frequency (B n1 n2 : ℝ) (particle1 particle2 : Particle)
    (Z1 Z2 : Option ℝ) (to_hz : Bool) : ℝ :=
  let omega_c1 := gyrofrequency B particle1 Z1
  let omega_c2 := gyrofrequency B particle2 Z2
  let omega_p1 := plasma_frequency n1 particle1 none
  let omega_p2 := plasma_frequency n2 particle2 none
  Real.sqrt ((omega_p1 ^ 2 * omega_c2 ^ 2 + omega_p2 ^ 2 * omega_c1 ^ 2)
      / (omega_p1 ^ 2 + omega_p2 ^ 2))

/-- The pure combination step of the formula, as a function of the four
sub-formula outputs only. -/
noncomputable def buchsbaumOf (omega_c1 omega_c2 omega_p1 omega_p2 : ℝ) : ℝ :=
  Real.sqrt ((omega_p1 ^ 2 * omega_c2 ^ 2 + omega_p2 ^ 2 * omega_c1 ^ 2)
      / (omega_p1 ^ 2 + omega_p2 ^ 2))

/- Basic facts about the modelled sub-formulas. -/

theorem e_si_pos : 0 < e_si := by norm_num [e_si]

theorem eps0_pos : 0 < eps0 := by norm_num [eps0]

theorem gyrofrequency_nonneg (B : ℝ) (p : Particle) (Z : Option ℝ) (hm : 0 < p.m) :
    0 ≤ gyrofrequency B p Z := by
  unfold gyrofrequency
  have he := e_si_pos
  positivity

theorem plasma_frequency_zero (p : Particle) (z : Option ℝ) :
    plasma_frequency 0 p z = 0 := by
  simp [plasma_frequency]

theorem plasma_frequency_sq (n : ℝ) (p : Particle) (hn : 0 ≤ n) (hm : 0 < p.m) :
    (plasma_frequency n p none) ^ 2 = n * p.Z ^ 2 * e_si ^ 2 / (eps0 * p.m) := by
  unfold plasma_frequency
  have he := e_si_pos
  have hep := eps0_pos
  simp only [Option.getD_none]
  rw [Real.sq_sqrt (by positivity)]

theorem plasma_frequency_pos (n : ℝ) (p : Particle) (hn : 0 < n) (hZ : p.Z ≠ 0)
    (hm : 0 < p.m) : 0 < plasma_frequency n p none := by
  unfold plasma_frequency
  apply Real.sqrt_pos.mpr
  have hz2 : 0 < p.Z ^ 2 := pow_two_pos_of_ne_zero hZ
  have he := e_si_pos
  have hep := eps0_pos
  positivity

/-- Swapping the two species' parameters simultaneously leaves the value
unchanged (shared helper). -/
theorem buchsbaum_swap (B n1 n2 : ℝ) (p1 p2 : Particle) (Z1 Z2 : Option ℝ)
    (th : Bool) :
    buchsbaum_frequency B n1 n2 p1 p2 Z1 Z2 th =
      buchsbaum_frequency B n2 n1 p2 p1 Z2 Z1 th := by
  unfold buchsbaum_frequency
  ring_nf

/-- When the densities are not both zero (and both species carry mass and
charge), the denominator `ω_p1² + ω_p2²` is strictly positive. -/
theorem plasma_sq_add_pos (n1 n2 : ℝ) (p1 p2 : Particle) (hn1 : 0 ≤ n1)
    (hn2 : 0 ≤ n2) (hm1 : 0 < p1.m) (hm2 : 0 < p2.m) (hZ1 : p1.Z ≠ 0)
    (hZ2 : p2.Z ≠ 0) (hne : ¬(n1 = 0 ∧ n2 = 0)) :
    0 < (plasma_frequency n1 p1 none) ^ 2 + (plasma_frequency n2 p2 none) ^ 2 := by
  rcases not_and_or.mp hne with h | h
  · have hpos := plasma_frequency_pos n1 p1 (lt_of_le_of_ne hn1 (Ne.symm h)) hZ1 hm1
    have h2 := sq_nonneg (plasma_frequency n2 p2 none)
    nlinarith
  · have hpos := plasma_frequency_pos n2 p2 (lt_of_le_of_ne hn2 (Ne.symm h)) hZ2 hm2
    have h1 := sq_nonneg (plasma_frequency n1 p1 none)
    nlinarith

/-- With the second density exactly zero and the first positive, the value
collapses to the unsigned gyrofrequency of species 2. -/
theorem buchsbaum_at_zero (B n1 : ℝ) (p1 p2 : Particle) (Z1 Z2 : Option ℝ)
    (th : Bool) (hn1 : 0 < n1) (hm1 : 0 < p1.m) (hm2 : 0 < p2.m)
    (hZ1 : p1.Z ≠ 0) :
    buchsbaum_frequency B n1 0 p1 p2 Z1 Z2 th = gyrofrequency B p2 Z2 := by
  have ha : (plasma_frequency n1 p1 none) ^ 2 ≠ 0 :=
    ne_of_gt (pow_pos (plasma_frequency_pos n1 p1 hn1 hZ1 hm1) 2)
  simp only [buchsbaum_frequency, plasma_frequency_zero]
  rw [show ((plasma_frequency n1 p1 none) ^ 2 * (gyrofrequency B p2 Z2) ^ 2
        + (0 : ℝ) ^ 2 * (gyrofrequency B p1 Z1) ^ 2)
      / ((plasma_frequency n1 p1 none) ^ 2 + (0 : ℝ) ^ 2)
      = (plasma_frequency n1 p1 none) ^ 2 * (gyrofrequency B p2 Z2) ^ 2
        / (plasma_frequency n1 p1 none) ^ 2 by ring_nf]
  rw [mul_comm, mul_div_assoc, div_self ha, mul_one]
  exact Real.sqrt_sq (gyrofrequency_nonneg B p2 Z2 hm2)

/-- C1: `buchsbaum_frequency` returns exactly
`sqrt((ω_p1²·ω_c2² + ω_p2²·ω_c1²) / (ω_p1² + ω_p2²))`, where the gyro
terms receive the charge overrides `Z1`, `Z2` and the plasma-frequency
terms receive no mean-charge override. -/
theorem buchsbaum_frequency_formula (B n1 n2 : ℝ) (p1 p2 : Particle)
    (Z1 Z2 : Option ℝ) (th : Bool) :
    buchsbaum_frequency B n1 n2 p1 p2 Z1 Z2 th =
      Real.sqrt (((plasma_frequency n1 p1 none) ^ 2 * (gyrofrequency B p2 Z2) ^ 2
          + (plasma_frequency n2 p2 none) ^ 2 * (gyrofrequency B p1 Z1) ^ 2)
        / ((plasma_frequency n1 p1 none) ^ 2 + (plasma_frequency n2 p2 none) ^ 2)) := rfl

/-- C2: simultaneously exchanging `(particle1, n1, Z1)` with
`(particle2, n2, Z2)` leaves the result unchanged. -/
theorem buchsbaum_frequency_symm (B n1 n2 : ℝ) (p1 p2 : Particle)
    (Z1 Z2 : Option ℝ) (th : Bool) :
    buchsbaum_frequency B n1 n2 p1 p2 Z1 Z2 th =
      buchsbaum_frequency B n2 n1 p2 p1 Z2 Z1 th :=
  buchsbaum_swap B n1 n2 p1 p2 Z1 Z2 th

/-- C6: the `to_hz` flag introduces no separate code path; the returned
value is identical for every value of the flag. -/
theorem buchsbaum_frequency_to_hz_irrelevant (B n1 n2 : ℝ) (p1 p2 : Particle)
    (Z1 Z2 : Option ℝ) :
    buchsbaum_frequency B n1 n2 p1 p2 Z1 Z2 true =
      buchsbaum_frequency B n1 n2 p1 p2 Z1 Z2 false := rfl

/-- C9: the result is an even function of the magnetic field, since the
unsigned gyrofrequencies depend on `B` only through `|B|`. -/
theorem buchsbaum_frequency_even_B (B n1 n2 : ℝ) (p1 p2 : Particle)
    (Z1 Z2 : Option ℝ) (th : Bool) :
    buchsbaum_frequency (-B) n1 n2 p1 p2 Z1 Z2 th =
      buchsbaum_frequency B n1 n2 p1 p2 Z1 Z2 th := by
  unfold buchsbaum_frequency gyrofrequency
  rw [abs_neg]

/-- C5: at `n1 = n2 = 0` both plasma frequencies vanish, so the unguarded
expression divides zero by zero (the indeterminate form the numeric
library surfaces as NaN); the function still returns, untrapped. -/
theorem buchsbaum_frequency_zero_zero (B : ℝ) (p1 p2 : Particle)
    (Z1 Z2 : Option ℝ) (th : Bool) :
    plasma_frequency 0 p1 none = 0 ∧ plasma_frequency 0 p2 none = 0 ∧
    (plasma_frequency 0 p1 none) ^ 2 * (gyrofrequency B p2 Z2) ^ 2
        + (plasma_frequency 0 p2 none) ^ 2 * (gyrofrequency B p1 Z1) ^ 2 = 0 ∧
    (plasma_frequency 0 p1 none) ^ 2 + (plasma_frequency 0 p2 none) ^ 2 = 0 ∧
    buchsbaum_frequency B 0 0 p1 p2 Z1 Z2 th = Real.sqrt (0 / 0) := by
  refine ⟨plasma_frequency_zero p1 none, plasma_frequency_zero p2 none, ?_, ?_, ?_⟩ <;>
    simp [buchsbaum_frequency, plasma_frequency_zero]

/-- C4: with valid inputs and densities not both zero, the expression under
the square root is a sum of non-negative terms divided by a strictly
positive sum, and the returned value is non-negative. -/
theorem buchsbaum_frequency_nonneg (B n1 n2 : ℝ) (p1 p2 : Particle)
    (Z1 Z2 : Option ℝ) (th : Bool) (hn1 : 0 ≤ n1) (hn2 : 0 ≤ n2)
    (hm1 : 0 < p1.m) (hm2 : 0 < p2.m) (hZ1 : p1.Z ≠ 0) (hZ2 : p2.Z ≠ 0)
    (hne : ¬(n1 = 0 ∧ n2 = 0)) :
    0 ≤ (plasma_frequency n1 p1 none) ^ 2 * (gyrofrequency B p2 Z2) ^ 2
        + (plasma_frequency n2 p2 none) ^ 2 * (gyrofrequency B p1 Z1) ^ 2 ∧
    0 < (plasma_frequency n1 p1 none) ^ 2 + (plasma_frequency n2 p2 none) ^ 2 ∧
    0 ≤ buchsbaum_frequency B n1 n2 p1 p2 Z1 Z2 th := by
  refine ⟨by positivity, plasma_sq_add_pos n1 n2 p1 p2 hn1 hn2 hm1 hm2 hZ1 hZ2 hne, ?_⟩
  exact Real.sqrt_nonneg _

/-- C10: scaling both number densities by the same positive factor leaves
the result unchanged, since each squared plasma frequency is proportional
to its density. -/
theorem buchsbaum_frequency_density_scale (B n1 n2 lam : ℝ) (p1 p2 : Particle)
    (Z1 Z2 : Option ℝ) (th : Bool) (hlam : 0 < lam) (hn1 : 0 ≤ n1)
    (hn2 : 0 ≤ n2) (hm1 : 0 < p1.m) (hm2 : 0 < p2.m)
    (hne : ¬(n1 = 0 ∧ n2 = 0)) :
    buchsbaum_frequency B (lam * n1) (lam * n2) p1 p2 Z1 Z2 th =
      buchsbaum_frequency B n1 n2 p1 p2 Z1 Z2 th := by
  have h1 : (plasma_frequency (lam * n1) p1 none) ^ 2
      = lam * (plasma_frequency n1 p1 none) ^ 2 := by
    rw [plasma_frequency_sq (lam * n1) p1 (by positivity) hm1,
      plasma_frequency_sq n1 p1 hn1 hm1]
    ring
  have h2 : (plasma_frequency (lam * n2) p2 none) ^ 2
      = lam * (plasma_frequency n2 p2 none) ^ 2 := by
    rw [plasma_frequency_sq (lam * n2) p2 (by positivity) hm2,
      plasma_frequency_sq n2 p2 hn2 hm2]
    ring
  simp only [buchsbaum_frequency]
  congr 1
  rw [h1, h2]
  rw [show lam * (plasma_frequency n1 p1 none) ^ 2 * (gyrofrequency B p2 Z2) ^ 2
        + lam * (plasma_frequency n2 p2 none) ^ 2 * (gyrofrequency B p1 Z1) ^ 2
      = lam * ((plasma_frequency n1 p1 none) ^ 2 * (gyrofrequency B p2 Z2) ^ 2
        + (plasma_frequency n2 p2 none) ^ 2 * (gyrofrequency B p1 Z1) ^ 2) by ring,
    show lam * (plasma_frequency n1 p1 none) ^ 2
        + lam * (plasma_frequency n2 p2 none) ^ 2
      = lam * ((plasma_frequency n1 p1 none) ^ 2
        + (plasma_frequency n2 p2 none) ^ 2) by ring,
    mul_div_mul_left _ _ (ne_of_gt hlam)]

/-- C8: with densities not both zero, the result lies between the two
unsigned gyrofrequencies, since its square is a weighted average of their
squares with non-negative weights. -/
theorem buchsbaum_frequency_between (B n1 n2 : ℝ) (p1 p2 : Particle)
    (Z1 Z2 : Option ℝ) (th : Bool) (hn1 : 0 ≤ n1) (hn2 : 0 ≤ n2)
    (hm1 : 0 < p1.m) (hm2 : 0 < p2.m) (hZ1 : p1.Z ≠ 0) (hZ2 : p2.Z ≠ 0)
    (hne : ¬(n1 = 0 ∧ n2 = 0)) :
    min (gyrofrequency B p1 Z1) (gyrofrequency B p2 Z2)
        ≤ buchsbaum_frequency B n1 n2 p1 p2 Z1 Z2 th ∧
    buchsbaum_frequency B n1 n2 p1 p2 Z1 Z2 th
        ≤ max (gyrofrequency B p1 Z1) (gyrofrequency B p2 Z2) := by
  have hc1 := gyrofrequency_nonneg B p1 Z1 hm1
  have hc2 := gyrofrequency_nonneg B p2 Z2 hm2
  have ha := sq_nonneg (plasma_frequency n1 p1 none)
  have hb := sq_nonneg (plasma_frequency n2 p2 none)
  have hab := plasma_sq_add_pos n1 n2 p1 p2 hn1 hn2 hm1 hm2 hZ1 hZ2 hne
  have hmn : 0 ≤ min (gyrofrequency B p1 Z1) (gyrofrequency B p2 Z2) :=
    le_min hc1 hc2
  have hmx : 0 ≤ max (gyrofrequency B p1 Z1) (gyrofrequency B p2 Z2) :=
    hc1.trans (le_max_left _ _)
  have hsq1 : (min (gyrofrequency B p1 Z1) (gyrofrequency B p2 Z2)) ^ 2
      ≤ (gyrofrequency B p1 Z1) ^ 2 :=
    pow_le_pow_left₀ hmn (min_le_left _ _) 2
  have hsq2 : (min (gyrofrequency B p1 Z1) (gyrofrequency B p2 Z2)) ^ 2
      ≤ (gyrofrequency B p2 Z2) ^ 2 :=
    pow_le_pow_left₀ hmn (min_le_right _ _) 2
  have hsq3 : (gyrofrequency B p1 Z1) ^ 2
      ≤ (max (gyrofrequency B p1 Z1) (gyrofrequency B p2 Z2)) ^ 2 :=
    pow_le_pow_left₀ hc1 (le_max_left _ _) 2
  have hsq4 : (gyrofrequency B p2 Z2) ^ 2
      ≤ (max (gyrofrequency B p1 Z1) (gyrofrequency B p2 Z2)) ^ 2 :=
    pow_le_pow_left₀ hc2 (le_max_right _ _) 2
  constructor
  · have hw : (min (gyrofrequency B p1 Z1) (gyrofrequency B p2 Z2)) ^ 2
        ≤ ((plasma_frequency n1 p1 none) ^ 2 * (gyrofrequency B p2 Z2) ^ 2
          + (plasma_frequency n2 p2 none) ^ 2 * (gyrofrequency B p1 Z1) ^ 2)
          / ((plasma_frequency n1 p1 none) ^ 2
            + (plasma_frequency n2 p2 none) ^ 2) := by
      rw [le_div_iff₀ hab]
      nlinarith [mul_le_mul_of_nonneg_left hsq1 hb, mul_le_mul_of_nonneg_left hsq2 ha]
    calc min (gyrofrequency B p1 Z1) (gyrofrequency B p2 Z2)
        = Real.sqrt ((min (gyrofrequency B p1 Z1) (gyrofrequency B p2 Z2)) ^ 2) :=
          (Real.sqrt_sq hmn).symm
      _ ≤ buchsbaum_frequency B n1 n2 p1 p2 Z1 Z2 th := Real.sqrt_le_sqrt hw
  · have hw : ((plasma_frequency n1 p1 none) ^ 2 * (gyrofrequency B p2 Z2) ^ 2
        + (plasma_frequency n2 p2 none) ^ 2 * (gyrofrequency B p1 Z1) ^ 2)
        / ((plasma_frequency n1 p1 none) ^ 2 + (plasma_frequency n2 p2 none) ^ 2)
        ≤ (max (gyrofrequency B p1 Z1) (gyrofrequency B p2 Z2)) ^ 2 := by
      rw [div_le_iff₀ hab]
      nlinarith [mul_le_mul_of_nonneg_left hsq3 hb, mul_le_mul_of_nonneg_left hsq4 ha]
    calc buchsbaum_frequency B n1 n2 p1 p2 Z1 Z2 th
        ≤ Real.sqrt ((max (gyrofrequency B p1 Z1) (gyrofrequency B p2 Z2)) ^ 2) :=
          Real.sqrt_le_sqrt hw
      _ = max (gyrofrequency B p1 Z1) (gyrofrequency B p2 Z2) := Real.sqrt_sq hmx

/-- The squared plasma frequency is a continuous function of the density. -/
theorem plasma_sq_continuous (p : Particle) :
    Continuous fun x : ℝ => (plasma_frequency x p none) ^ 2 := by
  unfold plasma_frequency
  exact (Real.continuous_sqrt.comp (by fun_prop)).pow 2

/-- As the second density tends to zero (first density positive), the value
tends to the unsigned gyrofrequency of species 2 (shared helper). -/
theorem buchsbaum_tendsto (B n1 : ℝ) (p1 p2 : Particle) (Z1 Z2 : Option ℝ)
    (th : Bool) (hn1 : 0 < n1) (hm1 : 0 < p1.m) (hm2 : 0 < p2.m)
    (hZ1 : p1.Z ≠ 0) :
    Filter.Tendsto (fun x => buchsbaum_frequency B n1 x p1 p2 Z1 Z2 th)
      (nhds 0) (nhds (gyrofrequency B p2 Z2)) := by
  have hc : Continuous fun x : ℝ => (plasma_frequency x p2 none) ^ 2 :=
    plasma_sq_continuous p2
  have hco : ContinuousAt (fun x => buchsbaum_frequency B n1 x p1 p2 Z1 Z2 th) 0 := by
    simp only [buchsbaum_frequency]
    apply ContinuousAt.comp Real.continuous_sqrt.continuousAt
    apply ContinuousAt.div
    · exact (continuous_const.add (hc.mul continuous_const)).continuousAt
    · exact (continuous_const.add hc).continuousAt
    · have hpos := pow_pos (plasma_frequency_pos n1 p1 hn1 hZ1 hm1) 2
      simp [plasma_frequency_zero, ne_of_gt hpos]
  have ht := hco.tendsto
  rw [buchsbaum_at_zero B n1 p1 p2 Z1 Z2 th hn1 hm1 hm2 hZ1] at ht
  exact ht

/-- C3: as `n2` tends to 0 with `n1` fixed positive the result tends to the
unsigned gyrofrequency of species 2, and at `n2 = 0` exactly it equals it;
symmetrically with the roles of the species exchanged. -/
theorem buchsbaum_frequency_limits (B n1 n2 : ℝ) (p1 p2 : Particle)
    (Z1 Z2 : Option ℝ) (th : Bool) (hn1 : 0 < n1) (hn2 : 0 < n2)
    (hm1 : 0 < p1.m) (hm2 : 0 < p2.m) (hZ1 : p1.Z ≠ 0) (hZ2 : p2.Z ≠ 0) :
    Filter.Tendsto (fun x => buchsbaum_frequency B n1 x p1 p2 Z1 Z2 th)
        (nhds 0) (nhds (gyrofrequency B p2 Z2)) ∧
    buchsbaum_frequency B n1 0 p1 p2 Z1 Z2 th = gyrofrequency B p2 Z2 ∧
    Filter.Tendsto (fun x => buchsbaum_frequency B x n2 p1 p2 Z1 Z2 th)
        (nhds 0) (nhds (gyrofrequency B p1 Z1)) ∧
    buchsbaum_frequency B 0 n2 p1 p2 Z1 Z2 th = gyrofrequency B p1 Z1 := by
  refine ⟨buchsbaum_tendsto B n1 p1 p2 Z1 Z2 th hn1 hm1 hm2 hZ1,
    buchsbaum_at_zero B n1 p1 p2 Z1 Z2 th hn1 hm1 hm2 hZ1, ?_, ?_⟩
  · have hfun : (fun x => buchsbaum_frequency B x n2 p1 p2 Z1 Z2 th)
        = fun x => buchsbaum_frequency B n2 x p2 p1 Z2 Z1 th :=
      funext fun x => buchsbaum_swap B x n2 p1 p2 Z1 Z2 th
    rw [hfun]
    exact buchsbaum_tendsto B n2 p2 p1 Z2 Z1 th hn2 hm2 hm1 hZ2
  · rw [buchsbaum_swap]
    exact buchsbaum_at_zero B n2 p2 p1 Z2 Z1 th hn2 hm2 hm1 hZ2

/-- C7: the charge overrides reach only the gyrofrequency sub-calls: the
result factors through the four sub-call outputs with the plasma terms
computed with no override, and any overrides yielding the same
gyrofrequencies yield the same result. -/
theorem buchsbaum_frequency_Z_only_gyro (B n1 n2 : ℝ) (p1 p2 : Particle)
    (Z1 Z2 Z1' Z2' : Option ℝ) (th : Bool)
    (h1 : gyrofrequency B p1 Z1 = gyrofrequency B p1 Z1')
    (h2 : gyrofrequency B p2 Z2 = gyrofrequency B p2 Z2') :
    buchsbaum_frequency B n1 n2 p1 p2 Z1 Z2 th =
      buchsbaumOf (gyrofrequency B p1 Z1) (gyrofrequency B p2 Z2)
        (plasma_frequency n1 p1 none) (plasma_frequency n2 p2 none) ∧
    buchsbaum_frequency B n1 n2 p1 p2 Z1 Z2 th =
      buchsbaum_frequency B n1 n2 p1 p2 Z1' Z2' th := by
  constructor
  · rfl
  · simp only [buchsbaum_frequency]
    rw [h1, h2]

/- Witnesses: each hypothesis-bearing theorem applied at a concrete input. -/

/-- Witness for C3 at `B = 1`, `n1 = n2 = 1`, unit-mass singly charged
test particles. -/
theorem buchsbaum_frequency_limits_witness :
    Filter.Tendsto (fun x => buchsbaum_frequency 1 1 x ⟨1, 1⟩ ⟨1, 1⟩ none none false)
        (nhds 0) (nhds (gyrofrequency 1 ⟨1, 1⟩ none)) ∧
    buchsbaum_frequency 1 1 0 ⟨1, 1⟩ ⟨1, 1⟩ none none false
        = gyrofrequency 1 ⟨1, 1⟩ none ∧
    Filter.Tendsto (fun x => buchsbaum_frequency 1 x 1 ⟨1, 1⟩ ⟨1, 1⟩ none none false)
        (nhds 0) (nhds (gyrofrequency 1 ⟨1, 1⟩ none)) ∧
    buchsbaum_frequency 1 0 1 ⟨1, 1⟩ ⟨1, 1⟩ none none false
        = gyrofrequency 1 ⟨1, 1⟩ none :=
  buchsbaum_frequency_limits 1 1 1 ⟨1, 1⟩ ⟨1, 1⟩ none none false
    one_pos one_pos one_pos one_pos one_ne_zero one_ne_zero

/-- Witness for C4 at `B = 1`, `n1 = n2 = 1`, unit-mass singly charged
test particles. -/
theorem buchsbaum_frequency_nonneg_witness :
    0 ≤ (plasma_frequency 1 ⟨1, 1⟩ none) ^ 2 * (gyrofrequency 1 ⟨1, 1⟩ none) ^ 2
        + (plasma_frequency 1 ⟨1, 1⟩ none) ^ 2 * (gyrofrequency 1 ⟨1, 1⟩ none) ^ 2 ∧
    0 < (plasma_frequency 1 ⟨1, 1⟩ none) ^ 2 + (plasma_frequency 1 ⟨1, 1⟩ none) ^ 2 ∧
    0 ≤ buchsbaum_frequency 1 1 1 ⟨1, 1⟩ ⟨1, 1⟩ none none false :=
  buchsbaum_frequency_nonneg 1 1 1 ⟨1, 1⟩ ⟨1, 1⟩ none none false
    zero_le_one zero_le_one one_pos one_pos one_ne_zero one_ne_zero (by norm_num)

/-- Witness for C7 at `B = 1`: the override `some 1` agrees with the default
charge of a singly charged test particle. -/
theorem buchsbaum_frequency_Z_only_gyro_witness :
    gyrofrequency 1 ⟨1, 1⟩ none = gyrofrequency 1 ⟨1, 1⟩ (some 1) ∧
    (buchsbaum_frequency 1 1 1 ⟨1, 1⟩ ⟨1, 1⟩ none none false =
        buchsbaumOf (gyrofrequency 1 ⟨1, 1⟩ none) (gyrofrequency 1 ⟨1, 1⟩ none)
          (plasma_frequency 1 ⟨1, 1⟩ none) (plasma_frequency 1 ⟨1, 1⟩ none) ∧
      buchsbaum_frequency 1 1 1 ⟨1, 1⟩ ⟨1, 1⟩ none none false =
        buchsbaum_frequency 1 1 1 ⟨1, 1⟩ ⟨1, 1⟩ (some 1) (some 1) false) :=
  ⟨rfl, buchsbaum_frequency_Z_only_gyro 1 1 1 ⟨1, 1⟩ ⟨1, 1⟩
    none none (some 1) (some 1) false rfl rfl⟩

/-- Witness for C8 at `B = 1`, `n1 = n2 = 1`, unit-mass singly charged
test particles. -/
theorem buchsbaum_frequency_between_witness :
    min (gyrofrequency 1 ⟨1, 1⟩ none) (gyrofrequency 1 ⟨1, 1⟩ none)
        ≤ buchsbaum_frequency 1 1 1 ⟨1, 1⟩ ⟨1, 1⟩ none none false ∧
    buchsbaum_frequency 1 1 1 ⟨1, 1⟩ ⟨1, 1⟩ none none false
        ≤ max (gyrofrequency 1 ⟨1, 1⟩ none) (gyrofrequency 1 ⟨1, 1⟩ none) :=
  buchsbaum_frequency_between 1 1 1 ⟨1, 1⟩ ⟨1, 1⟩ none none false
    zero_le_one zero_le_one one_pos one_pos one_ne_zero one_ne_zero (by norm_num)

/-- Witness for C10 at `λ = 2`, `B = 1`, `n1 = n2 = 1`, unit-mass test
particles. -/
theorem buchsbaum_frequency_density_scale_witness :
    buchsbaum_frequency 1 (2 * 1) (2 * 1) ⟨1, 1⟩ ⟨1, 1⟩ none none false =
      buchsbaum_frequency 1 1 1 ⟨1, 1⟩ ⟨1, 1⟩ none none false :=
  buchsbaum_frequency_density_scale 1 1 1 2 ⟨1, 1⟩ ⟨1, 1⟩ none none false
    two_pos zero_le_one zero_le_one one_pos one_pos (by norm_num)

end Hack
